import Mathlib

/-!
Verification of the page-image decision pipeline of the PDF-toolkit
repository: spread splitting, content crop detection, split symmetry
reconciliation, and the printed-page-number OCR extraction logic.

The definitions below are shallow embeddings of the Python functions in
`page_images.py`.  Pixel coordinates and user-facing integer options are
modelled as `Int` (Python integers); grayscale pixel values as `Nat`
(0..255).  Fractional (float) options enter the functions under study
only through integer quantities already derived from them (for example
`int(min_area_frac * image_area)`); those derived integers are taken as
parameters, so every behaviour of the source is an instance of the
embedding.
-/

namespace PdfToolkit

/-- Pixel bounding box `(left, top, right, bottom)`, a half-open
rectangle, mirroring the `BBox` tuple of the source. -/
structure BBox where
  left : Int
  top : Int
  right : Int
  bottom : Int
deriving DecidableEq, Repr

/-- `_bbox_width` from the source: `bbox[2] - bbox[0]`. -/
def bbox_width (b : BBox) : Int :=
  b.right - b.left

/-- `split_spread_image` from the source.  The image is represented by
its size; the two returned halves are represented by the crop
rectangles passed to `Image.crop` (so `left = [0, left_right)` and
`right = [right_left, width)` columns, full height).  A width below 2
raises `UserError` in the source, modelled as `none`. -/
def split_spread_image (width height gutter_x gutter_trim_px : Int) :
    Option (BBox × BBox) :=
  if width < 2 then none
  else
    let safe_gutter_x := max 1 (min (width - 1) gutter_x)
    let trim := max 0 gutter_trim_px
    let lr0 := max 1 (safe_gutter_x - trim)
    let rl0 := min (width - 1) (safe_gutter_x + trim)
    let lr1 := if lr0 ≤ 0 then 1 else lr0
    let rl1 := if rl0 ≥ width then width - 1 else rl0
    let lrrl :=
      if rl1 < lr1 then
        let mid := safe_gutter_x
        let lr2 := max 1 (min (width - 1) mid)
        let rl2 := max (lr2 + 1) (min (width - 1) (mid + 1))
        let rl3 := if rl2 > width - 1 then width - 1 else rl2
        (lr2, rl3)
      else (lr1, rl1)
    some (⟨0, 0, lrrl.1, height⟩, ⟨lrrl.2, 0, width, height⟩)

/-- Closed form of `split_spread_image` for splittable widths: the
clamping of the two cut positions never lets the halves collapse, so
the recovery branch of the source is unreachable. -/
theorem split_spread_image_eq (width height gutter_x gutter_trim_px : Int)
    (hw : 2 ≤ width) :
    split_spread_image width height gutter_x gutter_trim_px =
      some (⟨0, 0, max 1 (max 1 (min (width - 1) gutter_x) - max 0 gutter_trim_px), height⟩,
            ⟨min (width - 1) (max 1 (min (width - 1) gutter_x) + max 0 gutter_trim_px),
             0, width, height⟩) := by
  unfold split_spread_image
  rw [if_neg (by omega)]
  simp only
  have h1 : ¬ (max 1 (max 1 (min (width - 1) gutter_x) - max 0 gutter_trim_px) ≤ 0) := by
    omega
  have h2 : ¬ (min (width - 1) (max 1 (min (width - 1) gutter_x) + max 0 gutter_trim_px)
      ≥ width) := by
    omega
  rw [if_neg h1, if_neg h2, if_neg (by omega)]

/-- Shared tail of `_apply_split_symmetry_strategy`: the final clamping
of the four edges against the outer-margin and image bounds, the
collapse check, and the fallback to the original boxes with a note. -/
def symmetry_finish (original_left original_right : BBox) (strategy : String)
    (left_min_left left_max_right right_min_left right_max_right : Int)
    (left_l left_t left_r left_b right_l right_t right_r right_b : Int) :
    BBox × BBox × Option String :=
  let left_l2 := max left_l left_min_left
  let right_r2 := min right_r right_max_right
  let left_r2 := min left_r left_max_right
  let right_l2 := max right_l right_min_left
  if left_r2 ≤ left_l2 ∨ right_r2 ≤ right_l2 then
    if strategy = "mirror_from_gutter" then
      (original_left, original_right,
        some "Mirror symmetry could not be satisfied safely; used independent.")
    else
      (original_left, original_right,
        some ("Invalid symmetry bounds for strategy=" ++ strategy ++ "; used independent."))
  else (⟨left_l2, left_t, left_r2, left_b⟩, ⟨right_l2, right_t, right_r2, right_b⟩, none)

/-- When neither clamped box collapses, `symmetry_finish` returns the
clamped candidate boxes and no note. -/
theorem symmetry_finish_no_collapse
    (OL OR : BBox) (strategy : String)
    (lmin lmax rmin rmax ll lt lr lb rl rt rr rb : Int)
    (hL : max ll lmin < min lr lmax) (hR : max rl rmin < min rr rmax) :
    symmetry_finish OL OR strategy lmin lmax rmin rmax ll lt lr lb rl rt rr rb =
      (⟨max ll lmin, lt, min lr lmax, lb⟩, ⟨max rl rmin, rt, min rr rmax, rb⟩, none) := by
  unfold symmetry_finish
  rw [if_neg (by omega)]

/-- `_apply_split_symmetry_strategy` from the source.  `gutter_trim_px`
is accepted and ignored, exactly as in the source (the split boundaries
already removed the trim band). -/
def apply_split_symmetry_strategy (left_bbox right_bbox : BBox)
    (left_image_width right_image_width gutter_x right_offset_x : Int)
    (strategy : String)
    (gutter_trim_px left_outer_clamp_px right_outer_clamp_px : Int) :
    BBox × BBox × Option String :=
  if strategy = "independent" then (left_bbox, right_bbox, none)
  else
    let left_min_left := max 0 left_outer_clamp_px
    let left_max_right := left_image_width
    let right_min_left : Int := 0
    let right_max_right := max 1 (right_image_width - max 0 right_outer_clamp_px)
    if strategy = "match_max_width" then
      let left_width := left_bbox.right - left_bbox.left
      let right_width := right_bbox.right - right_bbox.left
      let max_width := max left_width right_width
      let left_r1 :=
        if left_width < max_width then min left_max_right (left_bbox.left + max_width)
        else left_bbox.right
      let right_l1 :=
        if right_width < max_width then max right_min_left (right_bbox.right - max_width)
        else right_bbox.left
      symmetry_finish left_bbox right_bbox strategy
        left_min_left left_max_right right_min_left right_max_right
        left_bbox.left left_bbox.top left_r1 left_bbox.bottom
        right_l1 right_bbox.top right_bbox.right right_bbox.bottom
    else if strategy = "mirror_from_gutter" then
      let right_global_left := right_offset_x + right_bbox.left
      let left_gap := max 0 (gutter_x - left_bbox.right)
      let right_gap := max 0 (right_global_left - gutter_x)
      let target_gap := max left_gap right_gap
      let left_r1 := min left_max_right (max (left_bbox.left + 1) (gutter_x - target_gap))
      let mirrored_right_local_left := gutter_x + target_gap - right_offset_x
      let right_l1 := max right_min_left
        (min (right_bbox.right - 1) mirrored_right_local_left)
      symmetry_finish left_bbox right_bbox strategy
        left_min_left left_max_right right_min_left right_max_right
        left_bbox.left left_bbox.top left_r1 left_bbox.bottom
        right_l1 right_bbox.top right_bbox.right right_bbox.bottom
    else
      (left_bbox, right_bbox, some "Unknown symmetry strategy; used independent.")

/-- The gap the `mirror_from_gutter` strategy equalises: the larger of
the two horizontal distances from the gutter to the inner crop edges
(`target_gap` in the source). -/
def mirror_target_gap (L R : BBox) (gutter_x right_offset_x : Int) : Int :=
  max (max 0 (gutter_x - L.right)) (max 0 (right_offset_x + R.left - gutter_x))

/-- Claim C3 (counterexample): at width 10, `gutter_x = 2`,
`gutter_trim_px = 5`, trimming would collapse the left half
(`2 - 5 ≤ 0`), yet `split_spread_image` does not return the untrimmed
split at the gutter (left `[0, 2)`, right `[2, 10)`); it returns the
clamped cut `[0, 1)` and `[7, 10)` instead. -/
theorem claim_c3_counterexample :
    (2 : Int) - 5 ≤ 0 ∧
    split_spread_image 10 5 2 5 ≠ some (⟨0, 0, 2, 5⟩, ⟨2, 0, 10, 5⟩) ∧
    split_spread_image 10 5 2 5 = some (⟨0, 0, 1, 5⟩, ⟨7, 0, 10, 5⟩) :=
  ⟨by norm_num, by decide, by decide⟩

/-- Claim C3 (amended): for every image of width at least 2, every
`gutter_x`, and every `gutter_trim_px`, `split_spread_image` returns
the clamped trimmed split: the left half is `[0, max 1 (g - t))` and
the right half `[min (width-1) (g + t), width)` columns, where `g` is
`gutter_x` clamped into `[1, width-1]` and `t` the trim clamped to be
non-negative.  Each half always keeps at least one pixel of width; no
fallback to the untrimmed split at `gutter_x` occurs. -/
theorem claim_c3_theorem (width height gutter_x gutter_trim_px : Int)
    (hw : 2 ≤ width) :
    split_spread_image width height gutter_x gutter_trim_px =
      some (⟨0, 0, max 1 (max 1 (min (width - 1) gutter_x) - max 0 gutter_trim_px), height⟩,
            ⟨min (width - 1) (max 1 (min (width - 1) gutter_x) + max 0 gutter_trim_px),
             0, width, height⟩) :=
  split_spread_image_eq width height gutter_x gutter_trim_px hw

/-- Claim C3 (witness): the amended statement evaluated at width 10,
height 5, `gutter_x = 2`, `gutter_trim_px = 5`. -/
theorem claim_c3_witness :
    split_spread_image 10 5 2 5 = some (⟨0, 0, 1, 5⟩, ⟨7, 0, 10, 5⟩) := by
  have h := claim_c3_theorem 10 5 2 5 (by norm_num)
  exact h.trans (by decide)

/-- Claim C9: for all widths at least 2 and positive heights,
`split_spread_image` yields halves whose widths are the trimmed spans
clamped to stay at least 1 pixel; with `trim = 0` the widths sum to the
image width, and with positive trim they sum to `width - 2 * trim`
whenever neither clamp binds. -/
theorem claim_c9_theorem (w h g t : Int) (hw : 2 ≤ w) (hh : 1 ≤ h) (ht : 0 ≤ t) :
    ∃ L R, split_spread_image w h g t = some (L, R) ∧
      bbox_width L = max 1 (max 1 (min (w - 1) g) - t) ∧
      bbox_width R = max 1 (w - (max 1 (min (w - 1) g) + t)) ∧
      (t = 0 → bbox_width L + bbox_width R = w) ∧
      (t ≤ max 1 (min (w - 1) g) - 1 → max 1 (min (w - 1) g) + t ≤ w - 1 →
        bbox_width L + bbox_width R = w - 2 * t) := by
  refine ⟨_, _, split_spread_image_eq w h g t hw, ?_, ?_, ?_, ?_⟩ <;>
    simp only [bbox_width] <;> omega

/-- Claim C9 (witness): the statement evaluated at width 10, height 5,
`gutter_x = 6`, `gutter_trim_px = 2`. -/
theorem claim_c9_witness :
    ∃ L R, split_spread_image 10 5 6 2 = some (L, R) ∧
      bbox_width L = max 1 (max 1 (min (10 - 1) 6) - 2) ∧
      bbox_width R = max 1 (10 - (max 1 (min (10 - 1) 6) + 2)) ∧
      ((2 : Int) = 0 → bbox_width L + bbox_width R = 10) ∧
      ((2 : Int) ≤ max 1 (min (10 - 1) 6) - 1 →
        (max 1 (min (10 - 1) 6) : Int) + 2 ≤ 10 - 1 →
        bbox_width L + bbox_width R = 10 - 2 * 2) :=
  claim_c9_theorem 10 5 6 2 (by norm_num) (by norm_num) (by norm_num)

/-- Claim C2 (counterexample): with `match_max_width`, a left box of
width 10 on a 10-wide page and a right box of width 5 on a 5-wide page,
the requested widening of the right box is truncated by the image
bound: the boxes come back with widths 10 and 5 and no note. -/
theorem claim_c2_counterexample :
    apply_split_symmetry_strategy ⟨0, 0, 10, 10⟩ ⟨0, 0, 5, 10⟩ 10 5 10 5
        "match_max_width" 0 0 0 =
      (⟨0, 0, 10, 10⟩, ⟨0, 0, 5, 10⟩, none) ∧
    bbox_width (⟨0, 0, 10, 10⟩ : BBox) ≠ bbox_width (⟨0, 0, 5, 10⟩ : BBox) :=
  ⟨by decide, by decide⟩

/-- Claim C2 (amended): `match_max_width` returns two boxes of the
shared larger width whenever that widening fits inside the image and
outer-clamp bounds of both pages (and then without a note); when a
bound truncates the widening the boxes may come back with unequal
widths and no note, and the original boxes with a note are returned
only if the clamping would collapse a box. -/
theorem claim_c2_theorem (L R : BBox)
    (liw riw gutter_x right_offset_x trim lclamp rclamp : Int)
    (hLpos : L.left < L.right) (hRpos : R.left < R.right)
    (hR0 : 0 ≤ R.left)
    (hLcl : max 0 lclamp ≤ L.left)
    (hRcl : R.right ≤ max 1 (riw - max 0 rclamp))
    (hLfit : L.left + max (bbox_width L) (bbox_width R) ≤ liw)
    (hRfit : 0 ≤ R.right - max (bbox_width L) (bbox_width R)) :
    (apply_split_symmetry_strategy L R liw riw gutter_x right_offset_x
        "match_max_width" trim lclamp rclamp).2.2 = none ∧
    bbox_width (apply_split_symmetry_strategy L R liw riw gutter_x right_offset_x
        "match_max_width" trim lclamp rclamp).1 =
      max (bbox_width L) (bbox_width R) ∧
    bbox_width (apply_split_symmetry_strategy L R liw riw gutter_x right_offset_x
        "match_max_width" trim lclamp rclamp).2.1 =
      max (bbox_width L) (bbox_width R) := by
  obtain ⟨ll, lt, lr, lb⟩ := L
  obtain ⟨rl, rt, rr, rb⟩ := R
  simp only [bbox_width] at *
  unfold apply_split_symmetry_strategy
  rw [if_neg (by decide), if_pos rfl]
  simp only
  split_ifs with h1 h2 h2 <;>
    rw [symmetry_finish_no_collapse] <;>
    first
      | omega
      | exact ⟨rfl, by simp only [bbox_width]; omega, by simp only [bbox_width]; omega⟩

/-- Claim C2 (witness): the amended statement at a left box `[0, 4)` on
a 10-wide page and a right box `[3, 6)` on a 10-wide page: both come
back with width 4 and no note. -/
theorem claim_c2_witness :
    (apply_split_symmetry_strategy ⟨0, 0, 4, 10⟩ ⟨3, 0, 6, 10⟩ 10 10 10 6
        "match_max_width" 0 0 0).2.2 = none ∧
    bbox_width (apply_split_symmetry_strategy ⟨0, 0, 4, 10⟩ ⟨3, 0, 6, 10⟩ 10 10 10 6
        "match_max_width" 0 0 0).1 =
      max (bbox_width (⟨0, 0, 4, 10⟩ : BBox)) (bbox_width (⟨3, 0, 6, 10⟩ : BBox)) ∧
    bbox_width (apply_split_symmetry_strategy ⟨0, 0, 4, 10⟩ ⟨3, 0, 6, 10⟩ 10 10 10 6
        "match_max_width" 0 0 0).2.1 =
      max (bbox_width (⟨0, 0, 4, 10⟩ : BBox)) (bbox_width (⟨3, 0, 6, 10⟩ : BBox)) :=
  claim_c2_theorem ⟨0, 0, 4, 10⟩ ⟨3, 0, 6, 10⟩ 10 10 10 6 0 0 0
    (by norm_num) (by norm_num) (by norm_num) (by norm_num)
    (by norm_num [bbox_width]) (by norm_num [bbox_width]) (by norm_num [bbox_width])

/-- Claim C4 (counterexample): with `mirror_from_gutter`, a left box
`[6, 9)` and right box `[5, 10)` around gutter 10 (right half offset
10): the target gap 5 does not fit on the left (the inner edge is held
at `left + 1 = 7`), so the boxes come back with gutter distances 3 and
5 — unequal — and no note, and the left box was changed. -/
theorem claim_c4_counterexample :
    apply_split_symmetry_strategy ⟨6, 0, 9, 10⟩ ⟨5, 0, 10, 10⟩ 10 10 10 10
        "mirror_from_gutter" 0 0 0 =
      (⟨6, 0, 7, 10⟩, ⟨5, 0, 10, 10⟩, none) ∧
    (10 : Int) - 7 ≠ (10 + 5) - 10 ∧
    (⟨6, 0, 7, 10⟩ : BBox) ≠ ⟨6, 0, 9, 10⟩ :=
  ⟨by decide, by decide, by decide⟩

/-- Claim C4 (amended): `mirror_from_gutter` returns boxes whose inner
edges sit at the same distance (the larger of the two input gaps) from
the gutter whenever both mirrored edges fit inside the boxes and the
image/clamp bounds (then without a note); when a bound truncates the
mirroring the distances may differ without a note, and the original
boxes with a note are returned only if a box would collapse. -/
theorem claim_c4_theorem (L R : BBox)
    (liw riw gutter_x right_offset_x trim lclamp rclamp : Int)
    (h1 : L.left + 1 ≤ gutter_x - mirror_target_gap L R gutter_x right_offset_x)
    (h2 : gutter_x - mirror_target_gap L R gutter_x right_offset_x ≤ liw)
    (h3 : gutter_x + mirror_target_gap L R gutter_x right_offset_x - right_offset_x ≤
      R.right - 1)
    (h4 : 0 ≤ gutter_x + mirror_target_gap L R gutter_x right_offset_x - right_offset_x)
    (h5 : max 0 lclamp ≤ L.left)
    (h6 : R.right ≤ max 1 (riw - max 0 rclamp)) :
    (apply_split_symmetry_strategy L R liw riw gutter_x right_offset_x
        "mirror_from_gutter" trim lclamp rclamp).2.2 = none ∧
    gutter_x - (apply_split_symmetry_strategy L R liw riw gutter_x right_offset_x
        "mirror_from_gutter" trim lclamp rclamp).1.right =
      mirror_target_gap L R gutter_x right_offset_x ∧
    (right_offset_x + (apply_split_symmetry_strategy L R liw riw gutter_x right_offset_x
        "mirror_from_gutter" trim lclamp rclamp).2.1.left) - gutter_x =
      mirror_target_gap L R gutter_x right_offset_x := by
  obtain ⟨ll, lt, lr, lb⟩ := L
  obtain ⟨rl, rt, rr, rb⟩ := R
  simp only [mirror_target_gap] at *
  unfold apply_split_symmetry_strategy
  rw [if_neg (by decide), if_neg (by decide), if_pos rfl]
  simp only
  rw [symmetry_finish_no_collapse]
  · exact ⟨rfl, by simp only; omega, by simp only; omega⟩
  · omega
  · omega

/-- Claim C4 (witness): the amended statement at left box `[0, 8)` and
right box `[2, 10)` around gutter 10 with right offset 10: both inner
edges end up 2 pixels from the gutter, with no note. -/
theorem claim_c4_witness :
    (apply_split_symmetry_strategy ⟨0, 0, 8, 10⟩ ⟨2, 0, 10, 10⟩ 10 10 10 10
        "mirror_from_gutter" 0 0 0).2.2 = none ∧
    (10 : Int) - (apply_split_symmetry_strategy ⟨0, 0, 8, 10⟩ ⟨2, 0, 10, 10⟩ 10 10 10 10
        "mirror_from_gutter" 0 0 0).1.right =
      mirror_target_gap ⟨0, 0, 8, 10⟩ ⟨2, 0, 10, 10⟩ 10 10 ∧
    (10 + (apply_split_symmetry_strategy ⟨0, 0, 8, 10⟩ ⟨2, 0, 10, 10⟩ 10 10 10 10
        "mirror_from_gutter" 0 0 0).2.1.left) - 10 =
      mirror_target_gap ⟨0, 0, 8, 10⟩ ⟨2, 0, 10, 10⟩ 10 10 :=
  claim_c4_theorem ⟨0, 0, 8, 10⟩ ⟨2, 0, 10, 10⟩ 10 10 10 10 0 0 0
    (by norm_num [mirror_target_gap]) (by norm_num [mirror_target_gap])
    (by norm_num [mirror_target_gap]) (by norm_num [mirror_target_gap])
    (by norm_num) (by norm_num)

/-- PIL `Image.getbbox` on the binary mask `point(lambda p: 255 if
p >= crop_threshold else 0)`: the tight bounding box of the pixels the
predicate accepts, as `(min x, min y, max x + 1, max y + 1)`, or `none`
when no pixel is accepted. -/
def maskGetbbox (w h : Nat) (bright : Nat → Nat → Bool) : Option BBox :=
  let cols := (List.range w).filter fun x => (List.range h).any fun y => bright x y
  let rows := (List.range h).filter fun y => (List.range w).any fun x => bright x y
  match cols.min?, rows.min?, cols.max?, rows.max? with
  | some l, some t, some r, some b => some ⟨(l : Int), (t : Int), (r : Int) + 1, (b : Int) + 1⟩
  | _, _, _, _ => none

/-- A bounding box produced by `maskGetbbox` is a valid sub-rectangle of
the image. -/
theorem maskGetbbox_valid (w h : Nat) (bright : Nat → Nat → Bool) (bb : BBox)
    (hbb : maskGetbbox w h bright = some bb) :
    0 ≤ bb.left ∧ bb.left < bb.right ∧ bb.right ≤ (w : Int) ∧
    0 ≤ bb.top ∧ bb.top < bb.bottom ∧ bb.bottom ≤ (h : Int) := by
  unfold maskGetbbox at hbb
  simp only at hbb
  set cols := (List.range w).filter fun x => (List.range h).any fun y => bright x y with hcols
  set rows := (List.range h).filter fun y => (List.range w).any fun x => bright x y with hrows
  rcases hl : cols.min? with _ | l <;> rcases ht : rows.min? with _ | t <;>
    rcases hr : cols.max? with _ | r <;> rcases hb : rows.max? with _ | b <;>
    rw [hl, ht, hr, hb] at hbb <;> simp only [reduceCtorEq] at hbb
  obtain rfl : bb = ⟨(l : Int), (t : Int), (r : Int) + 1, (b : Int) + 1⟩ :=
    (Option.some_inj.mp hbb).symm
  rw [List.min?_eq_some_iff'] at hl ht
  rw [List.max?_eq_some_iff'] at hr hb
  have hlr : l ≤ r := hl.2 r hr.1
  have htb : t ≤ b := ht.2 b hb.1
  have hrw : r < w := by
    have := hr.1
    rw [hcols, List.mem_filter, List.mem_range] at this
    exact this.1
  have hbh : b < h := by
    have := hb.1
    rw [hrows, List.mem_filter, List.mem_range] at this
    exact this.1
  refine ⟨by positivity, ?_, ?_, by positivity, ?_, ?_⟩ <;> simp only <;> omega

/-- Shared tail of `find_crop_bbox` from the post-inset validity check
onward: validity check, outer-margin clamp of the outer edge (left edge
of a left page, right edge of a right page, only when `clamp_px > 0`),
final validity check, fallback to the full image otherwise. -/
def crop_clamp_finish (w h : Nat) (l t r b clamp_px : Int) (is_left_page : Bool) :
    BBox × Bool × Option String :=
  if r ≤ l ∨ b ≤ t then
    (⟨0, 0, (w : Int), (h : Int)⟩, true,
      some "Invalid crop bounds after edge inset; used full image.")
  else
    let l3 := if 0 < clamp_px then (if is_left_page then max l clamp_px else l) else l
    let r3 := if 0 < clamp_px then
        (if is_left_page then r else min r ((w : Int) - clamp_px)) else r
    if r3 ≤ l3 ∨ b ≤ t then
      (⟨0, 0, (w : Int), (h : Int)⟩, true,
        some "Invalid crop bounds after outer margin clamp; used full image.")
    else (⟨l3, t, r3, b⟩, false, none)

/-- When the box is valid and no positive clamp is supplied,
`crop_clamp_finish` returns the box unchanged with no fallback. -/
theorem crop_clamp_finish_noclamp (w h : Nat) (l t r b clamp_px : Int)
    (is_left_page : Bool) (hlr : l < r) (htb : t < b) (hcl : clamp_px ≤ 0) :
    crop_clamp_finish w h l t r b clamp_px is_left_page = (⟨l, t, r, b⟩, false, none) := by
  unfold crop_clamp_finish
  rw [if_neg (by omega)]
  simp only [if_neg (show ¬ (0 < clamp_px) by omega)]
  rw [if_neg (by omega)]

/-- `crop_clamp_finish` always yields a valid box inside a positive
image, and a fallback is always the full image with a note. -/
theorem crop_clamp_finish_valid (w h : Nat) (l t r b clamp_px : Int)
    (is_left_page : Bool) (hw : 1 ≤ w) (hh : 1 ≤ h)
    (hl : 0 ≤ l) (hr : r ≤ (w : Int)) (ht : 0 ≤ t) (hb : b ≤ (h : Int)) :
    0 ≤ (crop_clamp_finish w h l t r b clamp_px is_left_page).1.left ∧
    (crop_clamp_finish w h l t r b clamp_px is_left_page).1.left <
      (crop_clamp_finish w h l t r b clamp_px is_left_page).1.right ∧
    (crop_clamp_finish w h l t r b clamp_px is_left_page).1.right ≤ (w : Int) ∧
    0 ≤ (crop_clamp_finish w h l t r b clamp_px is_left_page).1.top ∧
    (crop_clamp_finish w h l t r b clamp_px is_left_page).1.top <
      (crop_clamp_finish w h l t r b clamp_px is_left_page).1.bottom ∧
    (crop_clamp_finish w h l t r b clamp_px is_left_page).1.bottom ≤ (h : Int) ∧
    ((crop_clamp_finish w h l t r b clamp_px is_left_page).2.1 = true →
      (crop_clamp_finish w h l t r b clamp_px is_left_page).1 =
        ⟨0, 0, (w : Int), (h : Int)⟩ ∧
      (crop_clamp_finish w h l t r b clamp_px is_left_page).2.2 ≠ none) := by
  unfold crop_clamp_finish
  simp only
  split_ifs <;>
    refine ⟨?_, ?_, ?_, ?_, ?_, ?_, ?_⟩ <;>
    first
      | (intro hfb; exact ⟨rfl, by simp⟩)
      | (intro hfb; simp at hfb)
      | (simp only; omega)

/-- `find_crop_bbox` from the source.  The image is `w × h` with
grayscale pixel values `pix x y`; `minAreaPx` stands for the already
computed `int(min_area_frac * image_area)` and `clamp_px` for the
applied outer clamp returned by `_resolve_outer_clamp_px` (both derived
from float options in the source).  Returns the bbox, the
`used_fallback` flag, and the optional note; the source never raises. -/
def find_crop_bbox (w h : Nat) (pix : Nat → Nat → Nat) (crop_threshold : Int)
    (pad_px : Int) (minAreaPx : Int) (edge_inset_px : Int) (clamp_px : Int)
    (is_left_page : Bool) : BBox × Bool × Option String :=
  match maskGetbbox w h (fun x y => crop_threshold ≤ (pix x y : Int)) with
  | none => (⟨0, 0, (w : Int), (h : Int)⟩, true,
      some "No bright page region found; used full image.")
  | some bb0 =>
    if (bb0.right - bb0.left) * (bb0.bottom - bb0.top) < minAreaPx then
      (⟨0, 0, (w : Int), (h : Int)⟩, true,
        some "Detected page area too small; used full image.")
    else
      let l1 := max 0 (bb0.left - pad_px)
      let t1 := max 0 (bb0.top - pad_px)
      let r1 := min (w : Int) (bb0.right + pad_px)
      let b1 := min (h : Int) (bb0.bottom + pad_px)
      if r1 ≤ l1 ∨ b1 ≤ t1 then
        (⟨0, 0, (w : Int), (h : Int)⟩, true,
          some "Invalid crop bounds after padding; used full image.")
      else
        let inset := max 0 edge_inset_px
        if 0 < inset then
          let l2 := min (r1 - 1) (l1 + inset)
          let t2 := min (b1 - 1) (t1 + inset)
          let r2 := max (l2 + 1) (r1 - inset)
          let b2 := max (t2 + 1) (b1 - inset)
          crop_clamp_finish w h l2 t2 r2 b2 clamp_px is_left_page
        else crop_clamp_finish w h l1 t1 r1 b1 clamp_px is_left_page

/-- Claim C6: for every image with positive width and height and every
parameter setting, `find_crop_bbox` returns a valid half-open box
inside the image (`0 ≤ left < right ≤ w`, `0 ≤ top < bottom ≤ h`), and
whenever it reports a fallback the box is the full image and a note is
present.  The embedding is total, mirroring the fact that the source
function never raises. -/
theorem claim_c6_theorem (w h : Nat) (pix : Nat → Nat → Nat)
    (thr pad mA inset clampPx : Int) (isL : Bool)
    (hw : 1 ≤ w) (hh : 1 ≤ h) :
    0 ≤ (find_crop_bbox w h pix thr pad mA inset clampPx isL).1.left ∧
    (find_crop_bbox w h pix thr pad mA inset clampPx isL).1.left <
      (find_crop_bbox w h pix thr pad mA inset clampPx isL).1.right ∧
    (find_crop_bbox w h pix thr pad mA inset clampPx isL).1.right ≤ (w : Int) ∧
    0 ≤ (find_crop_bbox w h pix thr pad mA inset clampPx isL).1.top ∧
    (find_crop_bbox w h pix thr pad mA inset clampPx isL).1.top <
      (find_crop_bbox w h pix thr pad mA inset clampPx isL).1.bottom ∧
    (find_crop_bbox w h pix thr pad mA inset clampPx isL).1.bottom ≤ (h : Int) ∧
    ((find_crop_bbox w h pix thr pad mA inset clampPx isL).2.1 = true →
      (find_crop_bbox w h pix thr pad mA inset clampPx isL).1 = ⟨0, 0, (w : Int), (h : Int)⟩ ∧
      (find_crop_bbox w h pix thr pad mA inset clampPx isL).2.2 ≠ none) := by
  unfold find_crop_bbox
  rcases hm : maskGetbbox w h (fun x y => thr ≤ (pix x y : Int)) with _ | bb
  · refine ⟨?_, ?_, ?_, ?_, ?_, ?_, fun hfb => ⟨rfl, by simp⟩⟩ <;> simp only <;> omega
  · have hv := maskGetbbox_valid w h (fun x y => thr ≤ (pix x y : Int)) bb hm
    obtain ⟨l0, t0, r0, b0⟩ := bb
    simp only at hv
    simp only
    split_ifs with harea hpad hins
    · refine ⟨?_, ?_, ?_, ?_, ?_, ?_, fun hfb => ⟨rfl, by simp⟩⟩ <;> simp only <;> omega
    · refine ⟨?_, ?_, ?_, ?_, ?_, ?_, fun hfb => ⟨rfl, by simp⟩⟩ <;> simp only <;> omega
    · exact crop_clamp_finish_valid w h _ _ _ _ clampPx isL hw hh
        (by omega) (by omega) (by omega) (by omega)
    · exact crop_clamp_finish_valid w h _ _ _ _ clampPx isL hw hh
        (by omega) (by omega) (by omega) (by omega)

/-- Claim C6 (witness): the statement at a 1 × 1 all-black image with
threshold 180, no padding, inset, or clamp. -/
theorem claim_c6_witness :
    0 ≤ (find_crop_bbox 1 1 (fun _ _ => 0) 180 0 0 0 0 true).1.left ∧
    (find_crop_bbox 1 1 (fun _ _ => 0) 180 0 0 0 0 true).1.left <
      (find_crop_bbox 1 1 (fun _ _ => 0) 180 0 0 0 0 true).1.right ∧
    (find_crop_bbox 1 1 (fun _ _ => 0) 180 0 0 0 0 true).1.right ≤ ((1 : Nat) : Int) ∧
    0 ≤ (find_crop_bbox 1 1 (fun _ _ => 0) 180 0 0 0 0 true).1.top ∧
    (find_crop_bbox 1 1 (fun _ _ => 0) 180 0 0 0 0 true).1.top <
      (find_crop_bbox 1 1 (fun _ _ => 0) 180 0 0 0 0 true).1.bottom ∧
    (find_crop_bbox 1 1 (fun _ _ => 0) 180 0 0 0 0 true).1.bottom ≤ ((1 : Nat) : Int) ∧
    ((find_crop_bbox 1 1 (fun _ _ => 0) 180 0 0 0 0 true).2.1 = true →
      (find_crop_bbox 1 1 (fun _ _ => 0) 180 0 0 0 0 true).1 =
        ⟨0, 0, ((1 : Nat) : Int), ((1 : Nat) : Int)⟩ ∧
      (find_crop_bbox 1 1 (fun _ _ => 0) 180 0 0 0 0 true).2.2 ≠ none) :=
  claim_c6_theorem 1 1 (fun _ _ => 0) 180 0 0 0 0 true (by norm_num) (by norm_num)

/-- Claim C8 (counterexample): on a 10 × 10 all-dark image (every pixel
0, threshold 180) the detector falls back to the full image for both
`edge_inset_px = 0` and `edge_inset_px = 5`; the two boxes are equal,
so the box with inset 5 is not strictly smaller on any side. -/
theorem claim_c8_counterexample :
    (find_crop_bbox 10 10 (fun _ _ => 0) 180 5 25 5 0 true).1 =
      (find_crop_bbox 10 10 (fun _ _ => 0) 180 5 25 0 0 true).1 ∧
    ¬ ((find_crop_bbox 10 10 (fun _ _ => 0) 180 5 25 0 0 true).1.left <
        (find_crop_bbox 10 10 (fun _ _ => 0) 180 5 25 5 0 true).1.left) := by
  decide

/-- Claim C8 (amended): when the run with `edge_inset_px = 0` detects a
box (no fallback) of width and height at least 11 and no outer clamp is
applied, the run with `edge_inset_px = 5` returns that box shrunk by
exactly 5 pixels on each side — strictly smaller on all four sides. -/
theorem claim_c8_theorem (w h : Nat) (pix : Nat → Nat → Nat)
    (thr pad mA clampPx : Int) (isL : Bool) (l t r b : Int)
    (h0 : find_crop_bbox w h pix thr pad mA 0 clampPx isL = (⟨l, t, r, b⟩, false, none))
    (hwd : 11 ≤ r - l) (hht : 11 ≤ b - t) (hcl : clampPx ≤ 0) :
    find_crop_bbox w h pix thr pad mA 5 clampPx isL =
      (⟨l + 5, t + 5, r - 5, b - 5⟩, false, none) ∧
    l < l + 5 ∧ t < t + 5 ∧ r - 5 < r ∧ b - 5 < b := by
  unfold find_crop_bbox at h0 ⊢
  revert h0
  rcases hm : maskGetbbox w h (fun x y => thr ≤ (pix x y : Int)) with _ | bb
  · intro h0
    simp at h0
  · intro h0
    obtain ⟨l0, t0, r0, b0⟩ := bb
    simp only at h0 ⊢
    have hins0 : ¬ (0 < max 0 (0 : Int)) := by norm_num
    have hins5 : 0 < max 0 (5 : Int) := by norm_num
    split_ifs at h0 with harea hpad
    · exact absurd h0 (by simp)
    · exact absurd h0 (by simp)
    · have hlr1 : max 0 (l0 - pad) < min (w : Int) (r0 + pad) := by omega
      have htb1 : max 0 (t0 - pad) < min (h : Int) (b0 + pad) := by omega
      rw [crop_clamp_finish_noclamp w h _ _ _ _ clampPx isL hlr1 htb1 hcl] at h0
      simp only [Prod.mk.injEq, BBox.mk.injEq] at h0
      obtain ⟨⟨hl1, ht1, hr1, hb1⟩, -, -⟩ := h0
      rw [if_neg harea, if_neg hpad, if_pos hins5]
      rw [crop_clamp_finish_noclamp w h _ _ _ _ clampPx isL (by omega) (by omega) hcl]
      refine ⟨?_, by omega, by omega, by omega, by omega⟩
      have hgoal : ∀ (a c d e : Int), a = l + 5 → c = t + 5 → d = r - 5 → e = b - 5 →
          ((⟨a, c, d, e⟩ : BBox), false, (none : Option String)) =
          (⟨l + 5, t + 5, r - 5, b - 5⟩, false, none) := by
        intro a c d e ha hc hd he
        rw [ha, hc, hd, he]
      exact hgoal _ _ _ _ (by omega) (by omega) (by omega) (by omega)

/-- Claim C8 (witness): the amended statement at a 20 × 20 image with a
bright square `[2, 18) × [2, 18)`: inset 0 yields `(2, 2, 18, 18)` and
inset 5 yields `(7, 7, 13, 13)`. -/
theorem claim_c8_witness :
    find_crop_bbox 20 20
        (fun x y => if 2 ≤ x ∧ x < 18 ∧ 2 ≤ y ∧ y < 18 then 255 else 0)
        180 0 10 5 0 true =
      (⟨2 + 5, 2 + 5, 18 - 5, 18 - 5⟩, false, none) ∧
    (2 : Int) < 2 + 5 ∧ (2 : Int) < 2 + 5 ∧ (18 : Int) - 5 < 18 ∧ (18 : Int) - 5 < 18 :=
  claim_c8_theorem 20 20
    (fun x y => if 2 ≤ x ∧ x < 18 ∧ 2 ≤ y ∧ y < 18 then 255 else 0)
    180 0 10 0 true 2 2 18 18 (by decide) (by norm_num) (by norm_num) (by norm_num)

/-- Python `str.lower()` on the ASCII configuration strings handled
here: lower-case every character. -/
def pyLower (s : String) : String :=
  ⟨s.data.map Char.toLower⟩

/-- Python `value.strip().upper()`: drop leading and trailing
whitespace, then upper-case every character (the OCR text handled here
is ASCII). -/
def pyStripUpper (s : String) : String :=
  ⟨(((s.data.dropWhile Char.isWhitespace).reverse.dropWhile Char.isWhitespace).reverse).map
    Char.toUpper⟩

/-- Value table of the Roman numeral letters (the `table` dict in
`parse_roman_numeral`; other characters cannot occur after the
canonical-form check). -/
def romanTable (c : Char) : Int :=
  if c = 'I' then 1
  else if c = 'V' then 5
  else if c = 'X' then 10
  else if c = 'L' then 50
  else if c = 'C' then 100
  else if c = 'D' then 500
  else if c = 'M' then 1000
  else 0

/-- The left-to-right subtractive sum of `parse_roman_numeral`: a
numeral followed by a strictly larger numeral subtracts (the pair is
consumed together), otherwise it adds. -/
def romanSubtractiveSum : List Char → Int
  | [] => 0
  | [c] => romanTable c
  | c1 :: c2 :: rest =>
    if romanTable c1 < romanTable c2 then
      (romanTable c2 - romanTable c1) + romanSubtractiveSum rest
    else romanTable c1 + romanSubtractiveSum (c2 :: rest)

/-- The language of `M{0,4}`: the thousands group of the canonical
Roman numeral regular expression. -/
def romanThousands : List (List Char) :=
  [[], ['M'], ['M', 'M'], ['M', 'M', 'M'], ['M', 'M', 'M', 'M']]

/-- The language of `(CM|CD|D?C{0,3})`: the hundreds group. -/
def romanHundreds : List (List Char) :=
  [['C', 'M'], ['C', 'D'], [], ['C'], ['C', 'C'], ['C', 'C', 'C'],
   ['D'], ['D', 'C'], ['D', 'C', 'C'], ['D', 'C', 'C', 'C']]

/-- The language of `(XC|XL|L?X{0,3})`: the tens group. -/
def romanTens : List (List Char) :=
  [['X', 'C'], ['X', 'L'], [], ['X'], ['X', 'X'], ['X', 'X', 'X'],
   ['L'], ['L', 'X'], ['L', 'X', 'X'], ['L', 'X', 'X', 'X']]

/-- The language of `(IX|IV|V?I{0,3})`: the units group. -/
def romanUnits : List (List Char) :=
  [['I', 'X'], ['I', 'V'], [], ['I'], ['I', 'I'], ['I', 'I', 'I'],
   ['V'], ['V', 'I'], ['V', 'I', 'I'], ['V', 'I', 'I', 'I']]

/-- Full match against `ROMAN_CANONICAL_REGEX`
(`^M{0,4}(CM|CD|D?C{0,3})(XC|XL|L?X{0,3})(IX|IV|V?I{0,3})$`): the
string splits into one word of each of the four finite group
languages.  Regular-expression acceptance is exactly this existential
split, here decided by enumeration. -/
def romanCanonicalMatch (s : List Char) : Bool :=
  romanThousands.any fun m =>
    romanHundreds.any fun hs =>
      romanTens.any fun ts =>
        romanUnits.any fun us => s == m ++ hs ++ ts ++ us

/-- `parse_roman_numeral` from the source: strip and upper-case, reject
the empty string, reject anything outside the canonical grammar, and
otherwise return the subtractive sum. -/
def parse_roman_numeral (value : String) : Option Int :=
  let roman := pyStripUpper value
  if roman = "" then none
  else if romanCanonicalMatch roman.data then some (romanSubtractiveSum roman.data)
  else none

/-- `_extract_roman_letters` from the source: keep only the characters
present in the whitelist, preserving order and case. -/
def extract_roman_letters (raw whitelist : String) : String :=
  ⟨raw.data.filter fun c => whitelist.data.contains c⟩

/-- The first digit run of the text, at most 4 digits long: what
`PAGE_NUMBER_REGEX = r"\d{1,4}"` matches first (`re.search` starts the
match at the first digit and `{1,4}` greedily takes up to four
consecutive digits). -/
def firstDigitRun : List Char → Option (List Char)
  | [] => none
  | c :: cs =>
    if c.isDigit then some (((c :: cs).takeWhile Char.isDigit).take 4)
    else firstDigitRun cs

/-- Decimal value of a digit string, as Python `int` reads it (leading
zeros allowed). -/
def digitsVal (ds : List Char) : Int :=
  ds.foldl (fun acc c => acc * 10 + ((c.toNat : Int) - ('0'.toNat : Int))) 0

/-- `_extract_candidate` from the source: the integer value of the
first 1-4 digit token of the OCR output, if any. -/
def extract_candidate (raw : String) : Option Int :=
  (firstDigitRun raw.data).map digitsVal

/-- Output of one `ocr_text_tesseract` invocation: the recognised text
and the `last_error` attribute after the call (set on a non-zero exit
status or an invocation failure). -/
structure OcrOut where
  text : String
  err : Option String
deriving DecidableEq, Repr

/-- The OCR engine as an oracle: region name, psm value and character
whitelist determine the invocation (the cropped and normalised pixels
passed to the engine are a function of the region, so the pure oracle
subsumes them). -/
abbrev OcrFn := String → Int → String → OcrOut

/-- The digit whitelist the source passes for the Arabic pass. -/
def arabicWhitelist : String := "0123456789"

/-- The mutable scan state of `extract_printed_page_number`:
`saw_out_of_range`, `error_messages`, the per-region `last_raw`, plus
an instrumentation list of the OCR invocations made so far (used to
state that no invocation happens when the engine is missing). -/
structure ScanSt where
  saw_out_of_range : Bool
  error_messages : List String
  calls : List (String × Int × String)
  last_raw : String
deriving DecidableEq, Repr

/-- An accepted candidate: the fields the source fills into the result
on the early return. -/
structure Accepted where
  page : Int
  text : String
  kind : String
  psm : Int
  raw : String
deriving DecidableEq, Repr

/-- One OCR invocation: record the call, its error if any, and the raw
text (which also becomes `last_raw`). -/
def runOcrCall (ocr : OcrFn) (region_name : String) (psm : Int) (wl : String)
    (st : ScanSt) : ScanSt × String :=
  let o := ocr region_name psm wl
  ({ st with
      last_raw := o.text,
      calls := st.calls ++ [(region_name, psm, wl)],
      error_messages := st.error_messages ++
        (match o.err with | some e => [e] | none => []) },
   o.text)

/-- Candidate extraction of the Arabic pass: the first digit token and
its recorded text `str(arabic_candidate)`. -/
def arabicParse (raw : String) : Option (Int × String) :=
  (extract_candidate raw).map fun c => (c, toString c)

/-- Candidate extraction of the Roman pass: whitelist-filter the raw
text, parse it strictly, and record the filtered text. -/
def romanParse (roman_whitelist raw : String) : Option (Int × String) :=
  (parse_roman_numeral (extract_roman_letters raw roman_whitelist)).map fun c =>
    (c, extract_roman_letters raw roman_whitelist)

/-- One numeral pass (Arabic or Roman share this shape in the source):
invoke the engine, extract a candidate, accept it when it lies in
`[1, max_page]`, and otherwise record an out-of-range sighting. -/
def tryPass (ocr : OcrFn) (region_name : String) (psm : Int) (wl : String)
    (parseF : String → Option (Int × String)) (kind : String) (max_page : Int)
    (st : ScanSt) : ScanSt × Option Accepted :=
  let s1 := runOcrCall ocr region_name psm wl st
  match parseF s1.2 with
  | some ct =>
    if 1 ≤ ct.1 ∧ ct.1 ≤ max_page then
      (s1.1, some (⟨ct.1, ct.2, kind, psm, s1.2⟩ : Accepted))
    else ({ s1.1 with saw_out_of_range := true }, none)
  | none => (s1.1, none)

/-- One iteration of the psm loop body: the Arabic pass (when the
parser mode allows it), then, if nothing was accepted, the Roman pass
likewise. -/
def tryPsm (ocr : OcrFn) (parser_mode roman_whitelist : String) (max_page : Int)
    (region_name : String) (psm : Int) (st : ScanSt) : ScanSt × Option Accepted :=
  let stepA :=
    if parser_mode = "auto" ∨ parser_mode = "arabic" then
      tryPass ocr region_name psm arabicWhitelist arabicParse "arabic" max_page st
    else (st, none)
  match stepA with
  | (st1, some a) => (st1, some a)
  | (st1, none) =>
    if parser_mode = "auto" ∨ parser_mode = "roman" then
      tryPass ocr region_name psm roman_whitelist (romanParse roman_whitelist) "roman"
        max_page st1
    else (st1, none)

/-- The psm loop of one region: try each candidate psm in order,
stopping at the first acceptance. -/
def tryPsms (ocr : OcrFn) (parser_mode roman_whitelist : String) (max_page : Int)
    (region_name : String) : List Int → ScanSt → ScanSt × Option Accepted
  | [], st => (st, none)
  | psm :: rest, st =>
    match tryPsm ocr parser_mode roman_whitelist max_page region_name psm st with
    | (st1, some a) => (st1, some a)
    | (st1, none) => tryPsms ocr parser_mode roman_whitelist max_page region_name rest st1

/-- Python dict assignment `d[k] = v` on an insertion-ordered map. -/
def dictSet (d : List (String × String)) (k v : String) : List (String × String) :=
  if d.any (fun p => p.1 == k) then d.map fun p => if p.1 == k then (k, v) else p
  else d ++ [(k, v)]

/-- The region loop: `last_raw` restarts empty per region; on success
the accepted raw text is recorded for the region, otherwise the last
raw text of the region is recorded and the scan continues. -/
def scanRegions (ocr : OcrFn) (parser_mode roman_whitelist : String) (max_page : Int)
    (psms : List Int) : List (String × BBox) → ScanSt → List (String × String) →
      ScanSt × List (String × String) × Option (String × Accepted)
  | [], st, raws => (st, raws, none)
  | (region_name, _) :: rest, st, raws =>
    match tryPsms ocr parser_mode roman_whitelist max_page region_name psms
        { st with last_raw := "" } with
    | (st1, some a) => (st1, dictSet raws region_name a.raw, some (region_name, a))
    | (st1, none) =>
      scanRegions ocr parser_mode roman_whitelist max_page psms rest st1
        (dictSet raws region_name st1.last_raw)

/-- The result dict of `extract_printed_page_number` (the legacy mirror
fields `corner`, `corner_used`, `raw_left`, `raw_right` are fixed
projections of `raw_by_region` and `region_used` and are omitted). -/
structure ExtractionResult where
  printed_page : Option Int
  printed_page_text : Option String
  printed_page_kind : Option String
  region_used : Option String
  psm_used : Option Int
  raw_by_region : List (String × String)
  reason : Option String
  tesseract_error : Option String
deriving DecidableEq, Repr

/-- The initial result dict, before any attempt. -/
def emptyExtractionResult : ExtractionResult :=
  ⟨none, none, none, none, none, [], none, none⟩

/-- `extract_printed_page_number` from the source.  `regions` is the
output of `build_page_num_regions` (its geometry does not influence the
control flow modelled here); `tesseract_exe` is the explicit engine
argument and `which_result` the value of `which_tesseract()`; `ocr` is
the engine oracle.  The second component is the trace of OCR
invocations performed.  An empty-string executable is falsy in Python
and is treated like a missing engine, exactly as `if not
resolved_tesseract` does. -/
def extract_printed_page_number (regions : List (String × BBox))
    (tesseract_exe which_result : Option String) (ocr : OcrFn)
    (psm_candidates : List Int) (max_page : Int) (parser roman_whitelist : String) :
    ExtractionResult × List (String × Int × String) :=
  let resolved := match tesseract_exe with
    | some exe => some exe
    | none => which_result
  match resolved with
  | none => ({ emptyExtractionResult with reason := some "no_tesseract" }, [])
  | some exe =>
    if exe = "" then ({ emptyExtractionResult with reason := some "no_tesseract" }, [])
    else
      let parser_mode := pyLower parser
      match scanRegions ocr parser_mode roman_whitelist max_page psm_candidates regions
          ⟨false, [], [], ""⟩ [] with
      | (st, raws, some (region_name, a)) =>
        ({ emptyExtractionResult with
            printed_page := some a.page,
            printed_page_text := some a.text,
            printed_page_kind := some a.kind,
            region_used := some region_name,
            psm_used := some a.psm,
            raw_by_region := raws }, st.calls)
      | (st, raws, none) =>
        ({ emptyExtractionResult with
            raw_by_region := raws,
            reason := some (if st.saw_out_of_range then "out_of_range"
              else if st.error_messages ≠ [] then "tesseract_failed"
              else "no_digits"),
            tesseract_error :=
              if st.saw_out_of_range = false ∧ st.error_messages ≠ [] then
                some (String.intercalate "; " st.error_messages)
              else none }, st.calls)

/-- The error list one invocation contributes. -/
def errListOf (o : OcrOut) : List String :=
  match o.err with | some e => [e] | none => []

/-- Whether one pass would sight an out-of-range candidate: the parse
of the engine text yields a value outside `[1, max_page]`. -/
def passOutOfRange (max_page : Int) (parseF : String → Option (Int × String))
    (text : String) : Bool :=
  match parseF text with
  | some ct => decide (¬ (1 ≤ ct.1 ∧ ct.1 ≤ max_page))
  | none => false

/-- Whether the attempt at `(region_name, psm)` sights an out-of-range
candidate in either enabled pass. -/
def attemptOutOfRange (ocr : OcrFn) (parser_mode roman_whitelist : String)
    (max_page : Int) (region_name : String) (psm : Int) : Bool :=
  (if parser_mode = "auto" ∨ parser_mode = "arabic" then
      passOutOfRange max_page arabicParse (ocr region_name psm arabicWhitelist).text
    else false) ||
  (if parser_mode = "auto" ∨ parser_mode = "roman" then
      passOutOfRange max_page (romanParse roman_whitelist)
        (ocr region_name psm roman_whitelist).text
    else false)

/-- Whether the attempt at `(region_name, psm)` has an OCR invocation
report an error in either enabled pass. -/
def attemptInvokeError (ocr : OcrFn) (parser_mode roman_whitelist : String)
    (region_name : String) (psm : Int) : Bool :=
  (if parser_mode = "auto" ∨ parser_mode = "arabic" then
      (ocr region_name psm arabicWhitelist).err.isSome
    else false) ||
  (if parser_mode = "auto" ∨ parser_mode = "roman" then
      (ocr region_name psm roman_whitelist).err.isSome
    else false)

/-- Whether any attempt over the whole scan sights an out-of-range
candidate. -/
def anyOutOfRangeSighting (ocr : OcrFn) (parser_mode roman_whitelist : String)
    (max_page : Int) (regions : List (String × BBox)) (psms : List Int) : Bool :=
  regions.any fun rg => psms.any fun psm =>
    attemptOutOfRange ocr parser_mode roman_whitelist max_page rg.1 psm

/-- Whether any OCR invocation over the whole scan reports an error. -/
def anyInvokeError (ocr : OcrFn) (parser_mode roman_whitelist : String)
    (regions : List (String × BBox)) (psms : List Int) : Bool :=
  regions.any fun rg => psms.any fun psm =>
    attemptInvokeError ocr parser_mode roman_whitelist rg.1 psm

/-- A pass that accepts nothing extends the error list by its own
invocation error and ORs its out-of-range sighting into the flag. -/
theorem tryPass_none (ocr : OcrFn) (region_name : String) (psm : Int) (wl : String)
    (parseF : String → Option (Int × String)) (kind : String) (max_page : Int)
    (st st1 : ScanSt)
    (h : tryPass ocr region_name psm wl parseF kind max_page st = (st1, none)) :
    st1.saw_out_of_range =
      (st.saw_out_of_range || passOutOfRange max_page parseF (ocr region_name psm wl).text) ∧
    st1.error_messages = st.error_messages ++ errListOf (ocr region_name psm wl) := by
  unfold tryPass runOcrCall at h
  unfold passOutOfRange errListOf
  simp only at h
  rcases hp : parseF (ocr region_name psm wl).text with _ | ct <;> rw [hp] at h <;>
    simp only at h
  · simp only [Prod.mk.injEq] at h
    obtain ⟨rfl, -⟩ := h
    simp
  · split_ifs at h with hrange
    · simp at h
    · simp only [Prod.mk.injEq] at h
      obtain ⟨rfl, -⟩ := h
      simp [hrange]

/-- A psm attempt that accepts nothing updates the flags by exactly the
attempt-level sighting and error predicates. -/
theorem tryPsm_none (ocr : OcrFn) (parser_mode roman_whitelist : String)
    (max_page : Int) (region_name : String) (psm : Int) (st st1 : ScanSt)
    (h : tryPsm ocr parser_mode roman_whitelist max_page region_name psm st = (st1, none)) :
    st1.saw_out_of_range = (st.saw_out_of_range ||
      attemptOutOfRange ocr parser_mode roman_whitelist max_page region_name psm) ∧
    (st1.error_messages = [] ↔ st.error_messages = [] ∧
      attemptInvokeError ocr parser_mode roman_whitelist region_name psm = false) := by
  unfold tryPsm at h
  unfold attemptOutOfRange attemptInvokeError
  by_cases hA : parser_mode = "auto" ∨ parser_mode = "arabic" <;>
    by_cases hR : parser_mode = "auto" ∨ parser_mode = "roman" <;>
    simp only [hA, hR, if_true, if_false, if_pos, if_neg, not_false_iff] at h ⊢
  · rcases hstep : tryPass ocr region_name psm arabicWhitelist arabicParse "arabic"
        max_page st with ⟨stA, accA⟩
    rw [hstep] at h
    rcases accA with _ | a
    · simp only at h
      obtain ⟨hA1, hA2⟩ := tryPass_none _ _ _ _ _ _ _ _ _ hstep
      obtain ⟨hB1, hB2⟩ := tryPass_none _ _ _ _ _ _ _ _ _ h
      constructor
      · rw [hB1, hA1, Bool.or_assoc]
      · rw [hB2, hA2]
        simp only [List.append_eq_nil, List.append_assoc, Bool.or_eq_false_iff,
          and_assoc, errListOf]
        rcases (ocr region_name psm arabicWhitelist).err with _ | e1 <;>
          rcases (ocr region_name psm roman_whitelist).err with _ | e2 <;> simp
    · simp at h
  · rcases hstep : tryPass ocr region_name psm arabicWhitelist arabicParse "arabic"
        max_page st with ⟨stA, accA⟩
    rw [hstep] at h
    rcases accA with _ | a
    · simp only [Prod.mk.injEq] at h
      obtain ⟨rfl, -⟩ := h
      obtain ⟨hA1, hA2⟩ := tryPass_none _ _ _ _ _ _ _ _ _ hstep
      constructor
      · rw [hA1]
        simp
      · rw [hA2]
        simp only [List.append_eq_nil, Bool.or_eq_false_iff, errListOf]
        rcases (ocr region_name psm arabicWhitelist).err with _ | e1 <;> simp
    · simp at h
  · obtain ⟨hB1, hB2⟩ := tryPass_none _ _ _ _ _ _ _ _ _ h
    constructor
    · rw [hB1]
      simp
    · rw [hB2]
      simp only [List.append_eq_nil, Bool.or_eq_false_iff, errListOf]
      rcases (ocr region_name psm roman_whitelist).err with _ | e2 <;> simp
  · simp only [Prod.mk.injEq] at h
    obtain ⟨rfl, -⟩ := h
    simp

/-- A psm loop that accepts nothing accumulates exactly the per-attempt
sighting and error predicates over its psm list. -/
theorem tryPsms_none (ocr : OcrFn) (parser_mode roman_whitelist : String)
    (max_page : Int) (region_name : String) (psms : List Int) (st st1 : ScanSt)
    (h : tryPsms ocr parser_mode roman_whitelist max_page region_name psms st =
      (st1, none)) :
    st1.saw_out_of_range = (st.saw_out_of_range || psms.any fun psm =>
      attemptOutOfRange ocr parser_mode roman_whitelist max_page region_name psm) ∧
    (st1.error_messages = [] ↔ st.error_messages = [] ∧
      (psms.any fun psm =>
        attemptInvokeError ocr parser_mode roman_whitelist region_name psm) = false) := by
  induction psms generalizing st with
  | nil =>
    unfold tryPsms at h
    simp only [Prod.mk.injEq] at h
    obtain ⟨rfl, -⟩ := h
    simp
  | cons psm rest ih =>
    unfold tryPsms at h
    rcases hstep : tryPsm ocr parser_mode roman_whitelist max_page region_name psm st
      with ⟨stA, accA⟩
    rw [hstep] at h
    rcases accA with _ | a
    · simp only at h
      obtain ⟨h1, h2⟩ := tryPsm_none _ _ _ _ _ _ _ _ hstep
      obtain ⟨h3, h4⟩ := ih stA h
      refine ⟨?_, ?_⟩
      · rw [h3, h1, Bool.or_assoc, List.any_cons]
      · rw [h4, h2, List.any_cons]
        simp only [Bool.or_eq_false_iff, and_assoc]
    · simp at h

/-- A region scan that accepts nothing accumulates exactly the
whole-scan sighting and error predicates. -/
theorem scanRegions_none (ocr : OcrFn) (parser_mode roman_whitelist : String)
    (max_page : Int) (psms : List Int) (regions : List (String × BBox))
    (st st1 : ScanSt) (raws raws1 : List (String × String))
    (h : scanRegions ocr parser_mode roman_whitelist max_page psms regions st raws =
      (st1, raws1, none)) :
    st1.saw_out_of_range = (st.saw_out_of_range ||
      anyOutOfRangeSighting ocr parser_mode roman_whitelist max_page regions psms) ∧
    (st1.error_messages = [] ↔ st.error_messages = [] ∧
      anyInvokeError ocr parser_mode roman_whitelist regions psms = false) := by
  induction regions generalizing st raws with
  | nil =>
    unfold scanRegions at h
    simp only [Prod.mk.injEq] at h
    obtain ⟨rfl, -⟩ := h
    simp [anyOutOfRangeSighting, anyInvokeError]
  | cons rg rest ih =>
    obtain ⟨region_name, bb⟩ := rg
    unfold scanRegions at h
    rcases hstep : tryPsms ocr parser_mode roman_whitelist max_page region_name psms
        { st with last_raw := "" } with ⟨stA, accA⟩
    rw [hstep] at h
    rcases accA with _ | a
    · simp only at h
      obtain ⟨h1, h2⟩ := tryPsms_none _ _ _ _ _ _ _ _ hstep
      obtain ⟨h3, h4⟩ := ih stA _ h
      simp only [anyOutOfRangeSighting, anyInvokeError, List.any_cons] at h3 h4 ⊢
      refine ⟨?_, ?_⟩
      · rw [h3, h1]
        simp [Bool.or_assoc]
      · rw [h4, h2]
        simp only [Bool.or_eq_false_iff, and_assoc]
    · simp at h

/-- Claim C5: `parse_roman_numeral` returns a value exactly when the
stripped upper-cased input is non-empty and matches the canonical
subtractive grammar, the value being the left-to-right subtractive sum;
and the three reference evaluations hold. -/
theorem claim_c5_theorem :
    (∀ (s : String) (n : Int),
      parse_roman_numeral s = some n ↔
        (pyStripUpper s ≠ "" ∧ romanCanonicalMatch (pyStripUpper s).data = true ∧
          n = romanSubtractiveSum (pyStripUpper s).data)) ∧
    parse_roman_numeral "IV" = some 4 ∧
    parse_roman_numeral "IIII" = none ∧
    parse_roman_numeral "MCMXCIX" = some 1999 := by
  refine ⟨fun s n => ?_, by decide, by decide, by decide⟩
  unfold parse_roman_numeral
  simp only
  split_ifs with h1 h2
  · simp [h1]
  · simp [h1, h2, eq_comm]
  · simp [h1, h2]

/-- Claim C7: with no engine argument and no engine on the path,
extraction reports `no_tesseract` with no printed page and performs no
OCR invocation at all, for every region list, oracle and
configuration. -/
theorem claim_c7_theorem (regions : List (String × BBox)) (ocr : OcrFn)
    (psms : List Int) (max_page : Int) (parser roman_whitelist : String) :
    (extract_printed_page_number regions none none ocr psms max_page parser
        roman_whitelist).1.printed_page = none ∧
    (extract_printed_page_number regions none none ocr psms max_page parser
        roman_whitelist).1.reason = some "no_tesseract" ∧
    (extract_printed_page_number regions none none ocr psms max_page parser
        roman_whitelist).2 = [] :=
  ⟨rfl, rfl, rfl⟩

/-- Claim C1 (counterexample): with `max_page = 5000` and the engine
returning "12345" for every region, the digit pattern matches only
"1234", which is in range: the extraction accepts `printed_page = 1234`
instead of rejecting with `out_of_range`. -/
theorem claim_c1_counterexample :
    (extract_printed_page_number [("bottom_center", ⟨0, 0, 10, 10⟩)] (some "tesseract")
        none (fun _ _ _ => ⟨"12345", none⟩) [7] 5000 "auto"
        "IVXLCDMivxlcdm").1.printed_page = some 1234 ∧
    (extract_printed_page_number [("bottom_center", ⟨0, 0, 10, 10⟩)] (some "tesseract")
        none (fun _ _ _ => ⟨"12345", none⟩) [7] 5000 "auto"
        "IVXLCDMivxlcdm").1.reason ≠ some "out_of_range" :=
  ⟨by decide, by decide⟩

/-- Claim C1 (amended): with `max_page = 5000`, an engine answering
"12345" everywhere yields `printed_page = 1234` (the digit pattern
matches at most four digits, and 1234 is in range); an engine answering
"0123" yields the accepted value 123.  Holds for every configuration
with at least one region and one psm candidate whose parser mode
enables the digit pass. -/
theorem claim_c1_theorem (name : String) (bb : BBox) (rest : List (String × BBox))
    (psm : Int) (ps : List Int) (which_result : Option String) (exe : String)
    (parser roman_whitelist : String) (hexe : exe ≠ "")
    (hp : pyLower parser = "auto" ∨ pyLower parser = "arabic") :
    (extract_printed_page_number ((name, bb) :: rest) (some exe) which_result
        (fun _ _ _ => ⟨"12345", none⟩) (psm :: ps) 5000 parser
        roman_whitelist).1.printed_page = some 1234 ∧
    (extract_printed_page_number ((name, bb) :: rest) (some exe) which_result
        (fun _ _ _ => ⟨"0123", none⟩) (psm :: ps) 5000 parser
        roman_whitelist).1.printed_page = some 123 := by
  constructor <;>
  · unfold extract_printed_page_number
    simp only
    rw [if_neg hexe]
    unfold scanRegions tryPsms tryPsm tryPass runOcrCall
    rw [if_pos hp]
    simp only [arabicParse]
    first
      | rw [show extract_candidate "12345" = some 1234 from by decide]
      | rw [show extract_candidate "0123" = some 123 from by decide]
    simp only [Option.map_some']
    rw [if_pos (by norm_num)]

/-- Claim C1 (witness): the amended statement at one `bottom_center`
region, psm 7, parser "auto". -/
theorem claim_c1_witness :
    (extract_printed_page_number [("bottom_center", ⟨0, 0, 10, 10⟩)] (some "tesseract")
        none (fun _ _ _ => ⟨"12345", none⟩) [7] 5000 "auto"
        "IVXLCDMivxlcdm").1.printed_page = some 1234 ∧
    (extract_printed_page_number [("bottom_center", ⟨0, 0, 10, 10⟩)] (some "tesseract")
        none (fun _ _ _ => ⟨"0123", none⟩) [7] 5000 "auto"
        "IVXLCDMivxlcdm").1.printed_page = some 123 :=
  claim_c1_theorem "bottom_center" ⟨0, 0, 10, 10⟩ [] 7 [] none "tesseract" "auto"
    "IVXLCDMivxlcdm" (by decide) (by decide)

/-- Claim C10: whenever the extraction accepts no candidate while an
engine is available, the failure reason follows the fixed priority over
the whole scan: `out_of_range` if any parsed digit or Roman candidate
fell outside `[1, max_page]`, else `tesseract_failed` if any invocation
reported an error, else `no_digits` — so one out-of-range sighting
masks all invocation errors. -/
theorem claim_c10_theorem (regions : List (String × BBox)) (exe : String)
    (which_result : Option String) (ocr : OcrFn) (psms : List Int) (max_page : Int)
    (parser roman_whitelist : String) (hexe : exe ≠ "")
    (hnone : (extract_printed_page_number regions (some exe) which_result ocr psms
      max_page parser roman_whitelist).1.printed_page = none) :
    (extract_printed_page_number regions (some exe) which_result ocr psms max_page
        parser roman_whitelist).1.reason =
      some (if anyOutOfRangeSighting ocr (pyLower parser) roman_whitelist max_page
            regions psms = true then "out_of_range"
        else if anyInvokeError ocr (pyLower parser) roman_whitelist regions psms = true
          then "tesseract_failed"
        else "no_digits") := by
  unfold extract_printed_page_number at hnone ⊢
  simp only at hnone ⊢
  rw [if_neg hexe] at hnone ⊢
  revert hnone
  rcases hscan : scanRegions ocr (pyLower parser) roman_whitelist max_page psms regions
      ⟨false, [], [], ""⟩ [] with ⟨st, raws, _ | ⟨rname, a⟩⟩
  · intro hnone
    obtain ⟨h1, h2⟩ := scanRegions_none _ _ _ _ _ _ _ _ _ _ hscan
    simp only [Bool.false_or] at h1
    have h2b : st.error_messages = [] ↔
        anyInvokeError ocr (pyLower parser) roman_whitelist regions psms = false := by
      rw [h2]
      simp
    simp only
    rw [h1]
    refine congrArg some (if_congr Iff.rfl rfl (if_congr ?_ rfl rfl))
    rw [ne_eq, h2b]
    simp
  · intro hnone
    simp at hnone

/-- Claim C10 (witness): one region, psm candidates 3 then 7, parser
"arabic", `max_page = 500`: psm 3 reads 9999 (out of range), psm 7
fails with an engine error; the reported reason is `out_of_range`,
masking the error. -/
theorem claim_c10_witness :
    (extract_printed_page_number [("top_left", ⟨0, 0, 1, 1⟩)] (some "tesseract") none
        (fun _ psm _ => if psm = 3 then ⟨"9999", none⟩ else ⟨"", some "boom"⟩)
        [3, 7] 500 "arabic" "IVXLCDMivxlcdm").1.reason =
      some (if anyOutOfRangeSighting
            (fun _ psm _ => if psm = 3 then ⟨"9999", none⟩ else ⟨"", some "boom"⟩)
            (pyLower "arabic") "IVXLCDMivxlcdm" 500 [("top_left", ⟨0, 0, 1, 1⟩)]
            [3, 7] = true then "out_of_range"
        else if anyInvokeError
            (fun _ psm _ => if psm = 3 then ⟨"9999", none⟩ else ⟨"", some "boom"⟩)
            (pyLower "arabic") "IVXLCDMivxlcdm" [("top_left", ⟨0, 0, 1, 1⟩)] [3, 7] = true
          then "tesseract_failed"
        else "no_digits") :=
  claim_c10_theorem [("top_left", ⟨0, 0, 1, 1⟩)] "tesseract" none
    (fun _ psm _ => if psm = 3 then ⟨"9999", none⟩ else ⟨"", some "boom"⟩)
    [3, 7] 500 "arabic" "IVXLCDMivxlcdm" (by decide) (by decide)

end PdfToolkit
